import Mathlib

/-!
Verification development for the sparka chat-turn orchestrator.

Each definition is a shallow embedding of a function of the repository,
translated from the TypeScript source. JavaScript numbers that can go
negative are modelled as `Int`; token counts are `Nat`. The tiktoken
encoder is an external library, so every token-dependent definition is
parameterised by an arbitrary token-counting function `enc : String → Nat`.
-/

set_option autoImplicit false
set_option maxRecDepth 4096

namespace Sparka

/-! ## Tool catalog (src/lib/ai/tools/tools-definitions.ts) -/

inductive ToolName where
  | getWeather
  | createDocument
  | updateDocument
  | requestSuggestions
  | readDocument
  | retrieve
  | webSearch
  | stockChart
  | codeInterpreter
  | generateImage
  | deepResearch
deriving DecidableEq, Repr

structure ToolDefinition where
  name : String
  description : String
  cost : Int
deriving DecidableEq, Repr

/-- The static catalog `toolsDefinitions` mapping each tool to its fixed cost. -/
def toolsDefinitions : ToolName → ToolDefinition
  | .getWeather => ⟨ "getWeather", "Get the weather in a specific location", 1⟩
  | .createDocument => ⟨ "createDocument", "Create a new document", 5⟩
  | .updateDocument => ⟨ "updateDocument", "Update a document", 5⟩
  | .requestSuggestions => ⟨ "requestSuggestions", "Request suggestions for a document", 1⟩
  | .readDocument => ⟨ "readDocument", "Read the content of a document", 1⟩
  | .retrieve => ⟨ "retrieve", "Retrieve information from the web", 1⟩
  | .webSearch => ⟨ "webSearch", "Search the web", 3⟩
  | .stockChart => ⟨ "stockChart", "Get the stock chart for a specific stock", 1⟩
  | .codeInterpreter => ⟨ "codeInterpreter", "Interpret code in a virtual environment", 10⟩
  | .generateImage => ⟨ "generateImage", "Generate images from text descriptions", 5⟩
  | .deepResearch => ⟨ "deepResearch", "Research a topic", 50⟩

/-- The list `allTools = Object.keys(toolsDefinitions)`, in declaration order. -/
def allTools : List ToolName :=
  [.getWeather, .createDocument, .updateDocument, .requestSuggestions, .readDocument,
   .retrieve, .webSearch, .stockChart, .codeInterpreter, .generateImage, .deepResearch]

/-- Modelled from the spec: `filterAffordableTools` lives in
src/lib/credits/credits-utils.ts, which is not part of the corpus (only its
caller is). The spec defines it as: filter the catalog to tools whose fixed
cost ≤ availableBudget. -/
def filterAffordableTools (tools : List ToolName) (budget : Int) : List ToolName :=
  tools.filter (fun t => (toolsDefinitions t).cost ≤ budget)

/-- Truthiness of `modelDefinition.input` and value of `modelDefinition.reasoning`.
The full `AppModelDefinition` type is not in the corpus; `setupActiveTools` only
reads these two fields. -/
structure AppModelDefinition where
  input : Bool
  reasoning : Bool
deriving DecidableEq, Repr

/-- The `ANONYMOUS_LIMITS` constant is declared in src/lib/types/anonymous.ts,
which is not in the corpus; the two fields `setupActiveTools` reads are kept
as parameters so every theorem holds for whatever the real values are. -/
structure AnonymousLimits where
  credits : Int
  availableTools : List ToolName
deriving DecidableEq, Repr

structure SetupActiveToolsResult where
  activeTools : List ToolName
  error : Option String
deriving DecidableEq, Repr

/-- The `availableBudget` computed at the top of `setupActiveTools`
(src/app/(chat)/api/chat/route.ts lines 775-782). `reservationBudget` is
`reservation.budget` when a reservation exists, `none` otherwise. -/
def computeAvailableBudget (isAnonymous : Bool) (anonLimits : AnonymousLimits)
    (reservationBudget : Option Int) (baseModelCost : Int) : Int :=
  if isAnonymous then anonLimits.credits
  else match reservationBudget with
    | some b => b - baseModelCost
    | none => 0

/-- The affordability-plus-capability filtered tool list of `setupActiveTools`
(lines 784-802), before the explicit-request override. -/
def preActiveTools (isAnonymous : Bool) (anonLimits : AnonymousLimits)
    (modelDefinition : AppModelDefinition) (availableBudget : Int) : List ToolName :=
  let activeTools := filterAffordableTools
    (if isAnonymous then anonLimits.availableTools else allTools) availableBudget
  if modelDefinition.input then
    if modelDefinition.reasoning && activeTools.any (fun t => t = .deepResearch) then
      activeTools.filter (fun t => t ≠ .deepResearch)
    else activeTools
  else []

/-- The error string of lines 815-818: the template literal interpolates the
requested tool array (JavaScript joins array elements with a comma). -/
def insufficientBudgetMessage (requested : List ToolName) : String :=
  "Insufficient budget for requested tool: "
    ++ String.intercalate ", " (requested.map (fun t => (toolsDefinitions t).name)) ++ "."

/-- Embeds `setupActiveTools` (src/app/(chat)/api/chat/route.ts lines 760-830). -/
def setupActiveTools (isAnonymous : Bool) (anonLimits : AnonymousLimits)
    (baseModelCost : Int) (explicitlyRequestedTools : Option (List ToolName))
    (modelDefinition : AppModelDefinition) (reservationBudget : Option Int) :
    SetupActiveToolsResult :=
  let availableBudget := computeAvailableBudget isAnonymous anonLimits reservationBudget baseModelCost
  let activeTools := preActiveTools isAnonymous anonLimits modelDefinition availableBudget
  match explicitlyRequestedTools with
  | some requested =>
    if requested.length > 0 && !(activeTools.any (fun t => requested.contains t)) then
      { activeTools := [], error := some (insufficientBudgetMessage requested) }
    else if requested.length > 0 then
      { activeTools := requested, error := none }
    else
      { activeTools := activeTools, error := none }
  | none => { activeTools := activeTools, error := none }

/-- Embeds `getExplicitlyRequestedTools` (route.ts lines 476-492). -/
def getExplicitlyRequestedTools (selectedTool : Option String) : Option (List ToolName) :=
  match selectedTool with
  | some s =>
    if s = "deepResearch" then some [.deepResearch]
    else if s = "webSearch" then some [.webSearch]
    else if s = "generateImage" then some [.generateImage]
    else if s = "createDocument" then some [.createDocument, .updateDocument]
    else none
  | none => none

/-! ## Credit ledger and turn lifecycle (route.ts)

The `CreditReservation` class and `getCreditReservation` live in files that
are not part of the corpus; their contract is modelled from the spec (§4.3):
`reserve(owner, amount) -> Reservation | InsufficientBudget`, `finalize` and
`release` (`cleanup`) are mutually exclusive and idempotent. The route code
that drives them is in the corpus and is embedded below. -/

inductive ReservationStatus where
  | noReservation
  | active
  | released
  | finalized
deriving DecidableEq, Repr

/-- Modelled from the spec: `reservation.cleanup()` releases the reservation;
release is idempotent and a finalized reservation is not released again. -/
def cleanupReservation : ReservationStatus → ReservationStatus
  | .active => .released
  | s => s

structure AnonymousSession where
  remainingCredits : Int
deriving DecidableEq, Repr

inductive AnonSetupError where
  | rateLimitExceeded
  | anonymousLimitExceeded
  | modelNotAvailable
deriving DecidableEq, Repr

/-- Embeds `handleAnonymousUserSetup` (route.ts lines 172-243). The rate-limit
outcome and the anonymous-model allow-list membership are external inputs
(`checkAnonymousRateLimit` and `ANONYMOUS_LIMITS.AVAILABLE_MODELS` are not in
the corpus), so they enter as booleans. On success the session counter is
decremented by `baseModelCost` and persisted (line 239-240). -/
def handleAnonymousUserSetup (rateLimitOk : Bool) (session : AnonymousSession)
    (modelAllowed : Bool) (baseModelCost : Int) :
    Except AnonSetupError AnonymousSession :=
  if !rateLimitOk then .error .rateLimitExceeded
  else if session.remainingCredits ≤ 0 then .error .anonymousLimitExceeded
  else if !modelAllowed then .error .modelNotAvailable
  else .ok { remainingCredits := session.remainingCredits - baseModelCost }

/-- Modelled from the spec: `getCreditReservation(userId, baseModelCost)`
reserves `baseModelCost` credits against the user's balance, failing when the
balance is insufficient; the reservation's `budget` field carries the balance
available to the turn. -/
def getCreditReservation (userCredits : Int) (baseModelCost : Int) :
    Option Int × Option String :=
  if baseModelCost ≤ userCredits then (some userCredits, none)
  else (none, some "Insufficient credits")

/-- Result state of `handleCreditReservation` (route.ts lines 494-530):
reservation budget (for authenticated users) and the persisted anonymous
session. Note line 525: for anonymous users the counter is decremented a
second time here. -/
structure CreditReservationOutcome where
  reservationBudget : Option Int
  reservationStatus : ReservationStatus
  anonSession : Option AnonymousSession
  error : Option String
deriving DecidableEq, Repr

def handleCreditReservation (isAnonymous : Bool) (userCredits : Int)
    (baseModelCost : Int) (anonymousSession : Option AnonymousSession) :
    CreditReservationOutcome :=
  if !isAnonymous then
    match getCreditReservation userCredits baseModelCost with
    | (_, some creditError) =>
      { reservationBudget := none, reservationStatus := .noReservation,
        anonSession := anonymousSession, error := some creditError }
    | (res, none) =>
      { reservationBudget := res, reservationStatus := .active,
        anonSession := anonymousSession, error := none }
  else
    match anonymousSession with
    | some session =>
      { reservationBudget := none, reservationStatus := .noReservation,
        anonSession := some { remainingCredits := session.remainingCredits - baseModelCost },
        error := none }
    | none =>
      { reservationBudget := none, reservationStatus := .noReservation,
        anonSession := none, error := none }

inductive InitError where
  | anonSetup (e : AnonSetupError)
  | creditReservation (msg : String)
  | insufficientToolBudget (msg : String)
  | inputTooLong
deriving DecidableEq, Repr

/-- Ledger-relevant state left behind by `initializeChatRequest`: the status
of the credit reservation and the anonymous session counter as persisted. -/
structure LedgerState where
  reservationStatus : ReservationStatus
  anonSession : Option AnonymousSession
deriving DecidableEq, Repr

structure InitSuccess where
  activeTools : List ToolName
  reservationBudget : Option Int
deriving DecidableEq, Repr

/-- Embeds `initializeChatRequest` (route.ts lines 299-474), from anonymous setup to
input-token validation, threading the ledger state. Inputs that the route
reads from collaborators outside the corpus (rate limiter, model allow-list,
the user's credit balance, the converted user message's token count) enter
as parameters. `userMessageTokens` is
`calculateMessagesTokens(convertToModelMessages([userMessage]))` of line 283. -/
def initializeChatRequest (isAnonymous : Bool) (rateLimitOk : Bool)
    (modelAllowed : Bool) (session : AnonymousSession) (userCredits : Int)
    (baseModelCost : Int) (selectedTool : Option String)
    (modelDefinition : AppModelDefinition) (anonLimits : AnonymousLimits)
    (userMessageTokens : Nat) (maxInputTokens : Int) :
    Except InitError InitSuccess × LedgerState :=
  -- Anonymous setup (lines 352-376): on failure the request ends here.
  let anonResult : Except AnonSetupError (Option AnonymousSession) :=
    if isAnonymous then
      (handleAnonymousUserSetup rateLimitOk session modelAllowed baseModelCost).map some
    else .ok none
  match anonResult with
  | .error e => (.error (.anonSetup e), { reservationStatus := .noReservation, anonSession := none })
  | .ok anonymousSession =>
    let explicitlyRequestedTools := getExplicitlyRequestedTools selectedTool
    -- Credit reservation (lines 410-425).
    let outcome := handleCreditReservation isAnonymous userCredits baseModelCost anonymousSession
    match outcome.error with
    | some creditError =>
      (.error (.creditReservation creditError),
       { reservationStatus := outcome.reservationStatus, anonSession := outcome.anonSession })
    | none =>
      -- Tool gating (lines 427-442): on error the function returns at once,
      -- with no cleanup of the reservation created just above.
      let toolsResult := setupActiveTools isAnonymous anonLimits baseModelCost
        explicitlyRequestedTools modelDefinition outcome.reservationBudget
      match toolsResult.error with
      | some toolsError =>
        (.error (.insufficientToolBudget toolsError),
         { reservationStatus := outcome.reservationStatus, anonSession := outcome.anonSession })
      | none =>
        -- Input token validation (lines 444-451): same shape, no cleanup.
        if (userMessageTokens : Int) > maxInputTokens then
          (.error .inputTooLong,
           { reservationStatus := outcome.reservationStatus, anonSession := outcome.anonSession })
        else
          (.ok { activeTools := toolsResult.activeTools,
                 reservationBudget := outcome.reservationBudget },
           { reservationStatus := outcome.reservationStatus, anonSession := outcome.anonSession })

/-! ## Streaming error path (route.ts lines 567-585 and 666-679) -/

structure StoredAssistantMessage where
  partialFlag : Bool
  parts : List String
deriving DecidableEq, Repr

/-- State touched by the stream lifecycle handlers: the persisted assistant
row (`none` until the placeholder is saved), the reservation, and the
anonymous session. `partialFlag` embeds the row's `isPartial` metadata. -/
structure TurnState where
  assistantMessage : Option StoredAssistantMessage
  reservationStatus : ReservationStatus
  anonSession : Option AnonymousSession
deriving DecidableEq, Repr

/-- The placeholder save at the top of `createAndReturnStream` (lines 567-585):
for authenticated users an assistant message with `isPartial: true` and empty
parts is persisted before generation starts. -/
def savePlaceholderAssistantMessage (isAnonymous : Bool) (st : TurnState) : TurnState :=
  if isAnonymous then st
  else { st with assistantMessage := some { partialFlag := true, parts := [] } }

/-- The `onError` handler of `createUIMessageStream` (lines 666-679): clears
the timeout, releases the reservation via `cleanup`, refunds the anonymous
counter, and returns an error text. It performs no message update. -/
def onErrorHandler (baseModelCost : Int) (st : TurnState) : TurnState × String :=
  ({ st with
      reservationStatus := cleanupReservation st.reservationStatus,
      anonSession := st.anonSession.map
        (fun s => { remainingCredits := s.remainingCredits + baseModelCost }) },
   "Oops, an error occured!")

/-! ## Resume fallback (src/app/(chat)/api/chat/[id]/stream/route.ts lines 67-103) -/

/-- The fields of a persisted message that `handleFallbackStream` reads.
Timestamps are milliseconds since the epoch. -/
structure DBMessage where
  role : String
  createdAtMs : Int
  partialFlag : Bool
deriving DecidableEq, Repr

/-- date-fns `differenceInSeconds` with the default rounding: the millisecond
difference divided by 1000, rounded toward zero. -/
def jsDifferenceInSeconds (laterMs earlierMs : Int) : Int :=
  Int.tdiv (laterMs - earlierMs) 1000

inductive FallbackResponse where
  | emptyStream
  | appendMessage (m : DBMessage)
deriving DecidableEq, Repr

/-- Embeds `handleFallbackStream`: empty stream unless the most recent message is an
assistant message created within the 15-second recency window, in which case
a single `data-appendMessage` event is synthesized. -/
def handleFallbackStream (messages : List DBMessage) (resumeRequestedAtMs : Int) :
    FallbackResponse :=
  match messages.getLast? with
  | none => .emptyStream
  | some mostRecentMessage =>
    if mostRecentMessage.role ≠ "assistant" then .emptyStream
    else if jsDifferenceInSeconds resumeRequestedAtMs mostRecentMessage.createdAtMs > 15 then
      .emptyStream
    else .appendMessage mostRecentMessage

/-! ## Sheet artifact accumulation -/

/-- Embeds `SheetArtifact.reduceDelta` (src/lib/artifacts/schemas.ts lines 17-21). -/
def SheetArtifact_reduceDelta (accumulator : String) (delta : String) : String :=
  accumulator ++ delta

structure SheetLoopResult where
  content : String
  emitted : List String
deriving DecidableEq, Repr

/-- The `for await` loop body of `streamSheetArtifact`
(src/lib/artifacts/sheet/stream-sheet-artifact.ts lines 31-43): each partial
object's `csv`, when truthy, is written as a `data-sheetDelta` event and
becomes the new accumulated content. `partials` is the sequence of
`partialObject.csv` values (`none` when the field is absent). -/
def streamSheetLoopAux (content : String) (emitted : List String) :
    List (Option String) → SheetLoopResult
  | [] => { content := content, emitted := emitted }
  | csv? :: rest =>
    match csv? with
    | some csv =>
      if csv ≠ "" then streamSheetLoopAux csv (emitted ++ [csv]) rest
      else streamSheetLoopAux content emitted rest
    | none => streamSheetLoopAux content emitted rest

/-- Embeds the accumulation of the sheet streamer over a whole partial-output stream,
starting from the empty content of line 20. -/
def streamSheetLoop (partials : List (Option String)) : SheetLoopResult :=
  streamSheetLoopAux "" [] partials

/-! ## JSON values

JavaScript/JSON values as stored in message parts and tool outputs.
JavaScript `null` and `undefined` both collapse to `Json.null` wherever a
value is persisted (JSON storage cannot distinguish them). -/

inductive Json where
  | null
  | bool (b : Bool)
  | num (n : Int)
  | str (s : String)
  | arr (elems : List Json)
  | obj (fields : List (String × Json))

/-- JavaScript truthiness of a JSON value. -/
def Json.isTruthy : Json → Bool
  | .null => false
  | .bool b => b
  | .num n => n ≠ 0
  | .str s => s ≠ ""
  | .arr _ => true
  | .obj _ => true

/-- Property read `j[key]` on a JSON value; `none` for non-objects. -/
def jsonGet (j : Json) (key : String) : Option Json :=
  match j with
  | .obj fields => (fields.find? (fun p => p.1 = key)).map (fun p => p.2)
  | _ => none

/-! ## Recursive character text splitter (bundled text-splitter source) -/

/-- JS `text.includes(pat)`. -/
def jsIncludes (text pat : String) : Bool :=
  if pat = "" then true else (text.splitOn pat).length ≥ 2

/-- JS `text.split(separator)` for a non-empty separator, `text.split("")`
(single characters) otherwise; the splitter calls it as
`separator ? text.split(separator) : text.split( "")`. -/
def jsSplit (text sep : String) : List String :=
  if sep = "" then text.data.map (fun c => String.mk [c])
  else text.splitOn sep

/-- JS `s.slice(0, endIdx)` (a negative end counts from the end). -/
def jsSliceTo (s : String) (endIdx : Int) : String :=
  if endIdx < 0 then s.take (max 0 ((s.length : Int) + endIdx)).toNat
  else s.take endIdx.toNat

/-- Embeds `findSeparator`: the first separator that is empty or occurs in the text,
defaulting to the last separator of the list. -/
def findSeparator (separators : List String) (text : String) : String :=
  match separators.find? (fun s => s = "" || jsIncludes text s) with
  | some s => s
  | none => (separators.getLast?).getD ""

/-- Embeds `joinDocs`: join with the separator and trim; `none` when the result is
empty. -/
def joinDocs (docs : List String) (separator : String) : Option String :=
  let text := (String.intercalate separator docs).trim
  if text = "" then none else some text

/-- The pop loop inside `handleChunkOverflow`. The fuel is the length of
`currentDoc`: each iteration shifts one element, and once the buffer is empty
the JS loop can make no further progress (shifting an empty array changes
nothing), so the fuel is never exhausted before the JS loop stabilizes. -/
def popLoop (fuel : Nat) (len chunkSize overlapLimit : Int)
    (currentDoc : List String) (total : Int) : List String × Int :=
  match fuel with
  | 0 => (currentDoc, total)
  | fuel' + 1 =>
    if total > overlapLimit ∨ (total + len > chunkSize ∧ total > 0) then
      match currentDoc with
      | [] => (currentDoc, total)
      | c :: rest => popLoop fuel' len chunkSize overlapLimit rest (total - (c.length : Int))
    else (currentDoc, total)

/-- Embeds `handleChunkOverflow`: returns the updated `(docs, currentDoc, total)`
(the JS version mutates the two arrays in place and returns the total). -/
def handleChunkOverflow (chunkSize overlapLimit : Int) (separator : String)
    (d : String) (docs currentDoc : List String) (total : Int) :
    List String × List String × Int :=
  if total + (d.length : Int) ≤ chunkSize then (docs, currentDoc, total)
  else if currentDoc.length > 0 then
    let docs' := match joinDocs currentDoc separator with
      | some doc => docs ++ [doc]
      | none => docs
    let (currentDoc', total') :=
      popLoop currentDoc.length (d.length : Int) chunkSize overlapLimit currentDoc total
    (docs', currentDoc', total')
  else (docs, currentDoc, total)

/-- Embeds `mergeSplits`: accumulate splits into chunks of at most `chunkSize`
characters (best effort), flushing through `handleChunkOverflow`. -/
def mergeSplits (chunkSize chunkOverlap : Int) (splits : List String)
    (separator : String) : List String :=
  let overlapLimit := if separator = "" then 0 else chunkOverlap
  let step := fun (st : List String × List String × Int) (d : String) =>
    let (docs, currentDoc, total) := st
    let (docs', currentDoc', total') :=
      handleChunkOverflow chunkSize overlapLimit separator d docs currentDoc total
    (docs', currentDoc' ++ [d], total' + (d.length : Int))
  let (docs, currentDoc, _) := splits.foldl step ([], [], 0)
  match joinDocs currentDoc separator with
  | some doc => docs ++ [doc]
  | none => docs

/-- The parenthesis-merging pass of `handleSpaceCase`. -/
def combineParens : List String → List String
  | [] => []
  | [current] => [current]
  | current :: next :: rest' =>
    if jsIncludes current "( " && !jsIncludes current ")" && jsIncludes next ")" then
      (current ++ " " ++ next) :: combineParens rest'
    else current :: combineParens (next :: rest')

/-- Embeds `handleSpaceCase`: when splitting on spaces and the whole trimmed text
fits in one chunk, return minimally merged tokens. -/
def handleSpaceCase (chunkSize : Int) (splits : List String) (text : String) :
    Option (List String) :=
  match splits.head? with
  | none => none
  | some s0 =>
    if s0.trim = "" then none
    else
      let trimmed := text.trim
      if (trimmed.length : Int) > chunkSize then none
      else some (combineParens ((splits.map String.trim).filter (fun s => s ≠ "")))

/-- The default separator list of `RecursiveCharacterTextSplitter`. -/
def defaultSeparators : List String :=
  [ "\n\n", "\n", ".", ", ", ">", "<", " ", "" ]

/-- Embeds `RecursiveCharacterTextSplitter.splitText`, fueled: nested calls in
`mergeAndProcessSplits` recurse on split pieces, which shrink whenever the
chosen separator occurs in the text (always the case with the default
separator list, whose last entry is the empty string). The source throws when
`chunkOverlap >= chunkSize`; that exceptional exit is modelled as `[]`. -/
def splitTextF : Nat → Int → Int → List String → String → List String
  | 0, _, _, _, _ => []
  | fuel + 1, chunkSize, chunkOverlap, separators, text =>
    if chunkOverlap ≥ chunkSize then []
    else
      let separator := findSeparator separators text
      let splits := jsSplit text separator
      let mergeAndProcess : List String → List String := fun splits =>
        let step := fun (st : List String × List String) (s : String) =>
          let (finalChunks, goodSplits) := st
          if (s.length : Int) < chunkSize then (finalChunks, goodSplits ++ [s])
          else
            let finalChunks := if goodSplits.isEmpty then finalChunks
              else finalChunks ++ mergeSplits chunkSize chunkOverlap goodSplits separator
            (finalChunks ++ splitTextF fuel chunkSize chunkOverlap separators s, [])
        let (finalChunks, goodSplits) := splits.foldl step ([], [])
        if goodSplits.isEmpty then finalChunks
        else finalChunks ++ mergeSplits chunkSize chunkOverlap goodSplits separator
      if separator = " " then
        match handleSpaceCase chunkSize splits text with
        | some result => result
        | none => mergeAndProcess splits
      else mergeAndProcess splits

/-- The splitter entry point `splitText` with enough fuel for every terminating source run. -/
def splitText (chunkSize chunkOverlap : Int) (separators : List String)
    (text : String) : List String :=
  splitTextF (text.length + 1) chunkSize chunkOverlap separators text

/-! ## Token counting and truncation (token-utils source, part_004) -/

def MinChunkSize : Int := 140

/-- A part of an array-content model message. Non-text parts are charged a
flat 765-token overhead by `calculateMessagesTokens`; `toolResult` carries
the `output` field read by `truncateToolMessage`. -/
inductive MMPart where
  | text (text : String)
  | toolResult (output : Option Json)
  | otherPart

inductive MMContent where
  | str (s : String)
  | parts (l : List MMPart)

/-- A `ModelMessage`: role plus string-or-array content. -/
structure MM where
  role : String
  content : MMContent

/-- Token count of one content part (text is encoded, anything else costs the
765-token image approximation). -/
def mmPartTokens (enc : String → Nat) : MMPart → Nat
  | .text t => enc t
  | .toolResult _ => 765
  | .otherPart => 765

def mmContentTokens (enc : String → Nat) : MMContent → Nat
  | .str s => enc s
  | .parts l => (l.map (mmPartTokens enc)).sum

/-- Tokens of one message: role tokens, content tokens, and the 5-token
structural overhead. -/
def messageTokens (enc : String → Nat) (m : MM) : Nat :=
  enc m.role + mmContentTokens enc m.content + 5

/-- Embeds `calculateMessagesTokens`. -/
def calculateMessagesTokens (enc : String → Nat) : List MM → Nat
  | [] => 0
  | m :: rest => messageTokens enc m + calculateMessagesTokens enc rest

/-- Embeds `trimPrompt`, fueled by the prompt length: both recursive calls shrink
the prompt (the slice branch cuts to at most `length - 3` characters, and the
splitter branch is guarded by `trimmedPrompt.length ≠ prompt.length`), so the
fuel is never exhausted on a terminating source run. -/
def trimPromptF (enc : String → Nat) : Nat → String → Int → String
  | 0, _, _ => ""
  | fuel + 1, prompt, contextSize =>
    if prompt = "" then ""
    else
      let length : Int := enc prompt
      if length ≤ contextSize then prompt
      else
        let overflowTokens := length - contextSize
        let chunkSize := (prompt.length : Int) - overflowTokens * 3
        if chunkSize < MinChunkSize then jsSliceTo prompt MinChunkSize
        else
          let trimmedPrompt :=
            ((splitText chunkSize 0 defaultSeparators prompt).head?).getD ""
          if trimmedPrompt.length = prompt.length then
            trimPromptF enc fuel (jsSliceTo prompt chunkSize) contextSize
          else trimPromptF enc fuel trimmedPrompt contextSize

def trimPrompt (enc : String → Nat) (prompt : String) (contextSize : Int) : String :=
  trimPromptF enc (prompt.length + 1) prompt contextSize

/-- Embeds `truncateStringMessage`. -/
def truncateStringMessage (enc : String → Nat) (message : MM)
    (availableTokens : Int) : MM :=
  match message.content with
  | .str s => { message with content := .str (trimPrompt enc s availableTokens) }
  | _ => message

/-- The `isToolResult` test of `truncateToolMessage`: a tool-result part whose
truthy object output has a string `value` field. -/
def toolResultStringValue : MMPart → Option String
  | .toolResult (some j) =>
    match jsonGet j "value" with
    | some (.str v) => some v
    | _ => none
  | _ => none

/-- The replacement output `{ type: "text", value }` written by
`truncateToolMessage`. -/
def setToolResultTextValue (value : String) : MMPart :=
  .toolResult (some (.obj [ ( "type", .str "text"), ( "value", .str value) ]))

/-- The truncation loop of `truncateToolMessage`, running over the reversed
content array (the JS loop walks indices from the end; a splice at the
current index does not disturb the part of the array yet to be visited). -/
def truncToolRev (enc : String → Nat) : Int → List MMPart → List MMPart
  | _, [] => []
  | tokensToRemove, p :: rest =>
    if tokensToRemove ≤ 0 then p :: rest
    else
      match toolResultStringValue p with
      | some v =>
        let partTokens : Int := enc v
        if partTokens > 0 then
          let targetTokens := max 0 (partTokens - tokensToRemove)
          setToolResultTextValue (trimPrompt enc v targetTokens) ::
            truncToolRev enc (tokensToRemove - (partTokens - targetTokens)) rest
        else truncToolRev enc (tokensToRemove - partTokens) rest
      | none => p :: truncToolRev enc tokensToRemove rest

/-- Embeds `truncateToolMessage`. -/
def truncateToolMessage (enc : String → Nat) (message : MM)
    (availableTokens : Int) : MM :=
  match message.content with
  | .parts content =>
    let currentMessageTokens := calculateMessagesTokens enc [message]
    let tokensToRemove : Int := (currentMessageTokens : Int) - availableTokens
    { message with content := .parts ((truncToolRev enc tokensToRemove content.reverse).reverse) }
  | _ => message

/-- Embeds `truncateLastMessage` (the `_currentTokens` argument is unused in the
source as well). -/
def truncateLastMessage (enc : String → Nat) (message : MM)
    (_currentTokens : Nat) (availableTokens : Int) : MM :=
  match message.content with
  | .str _ =>
    if message.role ≠ "tool" then truncateStringMessage enc message availableTokens
    else message
  | .parts _ =>
    if message.role = "tool" then truncateToolMessage enc message availableTokens
    else message

/-- Embeds `handleInsufficientTokens` (the caller turns the `null` case into `[]`). -/
def handleInsufficientTokens (enc : String → Nat) (systemMessage : Option MM)
    (maxTokens : Int) : List MM :=
  match systemMessage with
  | some m =>
    match m.content with
    | .str s => [ { m with content := .str (trimPrompt enc s maxTokens) } ]
    | _ => [m]
  | none => []

/-- Embeds `removeMessagesUntilFit`: shift the oldest message while the total
exceeds the available tokens. -/
def removeMessagesUntilFit (enc : String → Nat) :
    List MM → Int → List MM
  | [], _ => []
  | m :: rest, availableTokens =>
    if (calculateMessagesTokens enc (m :: rest) : Int) > availableTokens then
      removeMessagesUntilFit enc rest availableTokens
    else m :: rest

/-- Replace the last element of a list (the write to
`truncatedMessages[truncatedMessages.length - 1]`). -/
def replaceLast (f : MM → MM) : List MM → List MM
  | [] => []
  | [m] => [f m]
  | m :: rest => m :: replaceLast f rest

/-- Embeds `truncateMessages` (token-utils, lines 192-241). -/
def truncateMessages (enc : String → Nat) (messages : List MM)
    (maxTokens : Int) (preserveSystemMessage : Bool) : List MM :=
  if messages.isEmpty then messages
  else
    let systemMessage : Option MM :=
      if preserveSystemMessage then
        match messages.head? with
        | some m => if m.role = "system" then some m else none
        | none => none
      else none
    let otherMessages := if systemMessage.isSome then messages.tail else messages
    let systemTokens : Nat := match systemMessage with
      | some m => calculateMessagesTokens enc [m]
      | none => 0
    let availableTokens : Int := maxTokens - systemTokens
    if availableTokens ≤ 0 then
      handleInsufficientTokens enc systemMessage maxTokens
    else
      let truncatedMessages := removeMessagesUntilFit enc otherMessages availableTokens
      let currentTokens := calculateMessagesTokens enc truncatedMessages
      let truncatedMessages :=
        if (currentTokens : Int) > availableTokens then
          if truncatedMessages.isEmpty then truncatedMessages
          else replaceLast
            (fun lastMessage => truncateLastMessage enc lastMessage currentTokens availableTokens)
            truncatedMessages
        else truncatedMessages
      match systemMessage with
      | some s => s :: truncatedMessages
      | none => truncatedMessages

/-- The budget floor under which the spec's truncation bound is claimed: one
more than the pinned system message's own token count (zero when there is no
pinned system message). -/
def minTokenFloor (enc : String → Nat) (messages : List MM)
    (preserveSystemMessage : Bool) : Int :=
  (match messages.head? with
   | some m =>
     if preserveSystemMessage && m.role = "system" then
       (calculateMessagesTokens enc [m] : Int)
     else 0
   | none => 0) + 1

/-! ## Message part mapping (src/lib/utils/message-mapping.ts)

UI parts are persisted as one database `Part` row each, with prefix-named
nullable columns; `none` models SQL NULL. Storing a JavaScript `null` (or an
absent value, via `?? null`) yields a NULL column. -/

/-- The four tool part states with the fields each state carries. -/
inductive ToolStateData where
  | inputStreaming (input : Option Json)
  | inputAvailable (input : Json)
  | outputAvailable (input : Json) (output : Json)
  | outputError (input : Json) (errorText : String)

def ToolStateData.stateString : ToolStateData → String
  | .inputStreaming _ => "input-streaming"
  | .inputAvailable _ => "input-available"
  | .outputAvailable _ _ => "output-available"
  | .outputError _ _ => "output-error"

/-- The supported UI message part shapes. Tool parts carry their metadata
under `callProviderMetadata` (so the generic `"providerMetadata" in part`
check of the storage direction does not see it); step-start and data parts
carry none. -/
inductive UIPart where
  | text (text : String) (providerMetadata : Option Json)
  | reasoning (text : String) (providerMetadata : Option Json)
  | file (mediaType : String) (filename : Option String) (url : String)
      (providerMetadata : Option Json)
  | sourceUrl (sourceId : String) (url : String) (title : Option String)
      (providerMetadata : Option Json)
  | sourceDocument (sourceId : String) (mediaType : String) (title : String)
      (filename : Option String) (providerMetadata : Option Json)
  | stepStart
  | tool (name : String) (toolCallId : String) (state : ToolStateData)
      (callProviderMetadata : Option Json)
  | data (name : String) (d : Json)

/-- The `type` discriminator string of a part. -/
def UIPart.typeString : UIPart → String
  | .text .. => "text"
  | .reasoning .. => "reasoning"
  | .file .. => "file"
  | .sourceUrl .. => "source-url"
  | .sourceDocument .. => "source-document"
  | .stepStart => "step-start"
  | .tool name .. => "tool-" ++ name
  | .data name .. => "data-" ++ name

/-- The value of `"providerMetadata" in part ? part.providerMetadata : undefined`. -/
def UIPart.providerMetadataField : UIPart → Option Json
  | .text _ pm => pm
  | .reasoning _ pm => pm
  | .file _ _ _ pm => pm
  | .sourceUrl _ _ _ pm => pm
  | .sourceDocument _ _ _ _ pm => pm
  | .stepStart => none
  | .tool .. => none
  | .data .. => none

/-- A database `Part` row (`createBasePart` sets every nullable column to
null). -/
structure DBPart where
  messageId : String
  order : Nat
  type : String
  text_text : Option String := none
  reasoning_text : Option String := none
  file_mediaType : Option String := none
  file_filename : Option String := none
  file_url : Option String := none
  source_url_sourceId : Option String := none
  source_url_url : Option String := none
  source_url_title : Option String := none
  source_document_sourceId : Option String := none
  source_document_mediaType : Option String := none
  source_document_title : Option String := none
  source_document_filename : Option String := none
  tool_name : Option String := none
  tool_toolCallId : Option String := none
  tool_state : Option String := none
  tool_input : Option Json := none
  tool_output : Option Json := none
  tool_errorText : Option String := none
  data_type : Option String := none
  data_blob : Option Json := none
  providerMetadata : Option Json := none

/-- Writing a JSON value through `?? null` into a nullable column:
JavaScript `null` becomes SQL NULL. -/
def jsonToColumn : Json → Option Json
  | .null => none
  | j => some j

def optJsonToColumn : Option Json → Option Json
  | none => none
  | some j => jsonToColumn j

/-- Reading a nullable JSON column through `?? null`. -/
def columnToJson : Option Json → Json
  | none => .null
  | some j => j

/-- The value of `x ? some x : none` on an optional JSON value (used for the
`providerMetadata` truthiness guards). -/
def truthyMeta : Option Json → Option Json
  | some j => if j.isTruthy then some j else none
  | none => none

/-- JS truthiness of a nullable string column. -/
def columnTruthyString : Option String → Bool
  | some s => s ≠ ""
  | none => false

/-- JS `s.startsWith(p)`, character-wise. -/
def jsStartsWith (s p : String) : Bool :=
  p.data.isPrefixOf s.data

/-- JS `s.slice(n)` for a nonnegative character count (used to strip the
`tool-` / `data-` type prefixes). -/
def jsDropChars (s : String) (n : Nat) : String :=
  String.mk (s.data.drop n)

/-- JS truthiness of a nullable JSON column. -/
def columnTruthyJson : Option Json → Bool
  | some j => j.isTruthy
  | none => false

/-- Modelled from the spec: `validateToolPart`
(src/lib/utils/message-part-validators.ts is not in the corpus) schema-checks
a tool part; every shape representable by `ToolStateData` carries exactly the
fields of a valid state, so validation succeeds on them. -/
def validateToolPart (_name : String) (_toolCallId : String)
    (_state : ToolStateData) : Bool := true

/-- Embeds `mapPartToDBPart` (message-mapping.ts lines 97-157), covering the
supported shapes: the legacy `tool-invocation` type is skipped, tool parts go
through `convertToolPartToDB` (all four states are in `statesWithInput`) and
data parts through `convertDataPartToDB`. -/
def mapPartToDBPart (part : UIPart) (index : Nat) (messageId : String) :
    Option DBPart :=
  if part.typeString = "tool-invocation" then none
  else
    let base : DBPart :=
      { messageId := messageId, order := index, type := part.typeString,
        providerMetadata := truthyMeta part.providerMetadataField }
    match part with
    | .text t _ => some { base with text_text := some t }
    | .reasoning t _ => some { base with reasoning_text := some t }
    | .file mediaType filename url _ =>
      some { base with file_mediaType := some mediaType,
                       file_filename := filename, file_url := some url }
    | .sourceUrl sourceId url title _ =>
      some { base with source_url_sourceId := some sourceId,
                       source_url_url := some url, source_url_title := title }
    | .sourceDocument sourceId mediaType title filename _ =>
      some { base with source_document_sourceId := some sourceId,
                       source_document_mediaType := some mediaType,
                       source_document_title := some title,
                       source_document_filename := filename }
    | .stepStart => some base
    | .tool name toolCallId state _ =>
      if validateToolPart name toolCallId state then
        some { base with
          tool_name := some name,
          tool_toolCallId := some toolCallId,
          tool_state := some state.stateString,
          tool_input := (match state with
            | .inputStreaming input => optJsonToColumn input
            | .inputAvailable input => jsonToColumn input
            | .outputAvailable input _ => jsonToColumn input
            | .outputError input _ => jsonToColumn input),
          tool_output := (match state with
            | .outputAvailable _ output => jsonToColumn output
            | _ => none),
          tool_errorText := (match state with
            | .outputError _ errorText => some errorText
            | _ => none) }
      else none
    | .data name d =>
      some { base with data_type := some name, data_blob := jsonToColumn d }

/-- Embeds `mapUIMessagePartsToDBParts`: map each part with its index, dropping the
`null` results (written as one indexed recursion; the source maps then
filters). -/
def mapPartsToDBAux (messageId : String) (index : Nat) :
    List UIPart → List DBPart
  | [] => []
  | p :: rest =>
    match mapPartToDBPart p index messageId with
    | some db => db :: mapPartsToDBAux messageId (index + 1) rest
    | none => mapPartsToDBAux messageId (index + 1) rest

def mapUIMessagePartsToDBParts (parts : List UIPart) (messageId : String) :
    List DBPart :=
  mapPartsToDBAux messageId 0 parts

/-- What `mapPartToUIPart` can produce: a reconstructed UI part, or (in the
fallback branch of `convertDataPartToUI`) the raw stored blob returned as if
it were a part. -/
inductive RestoredPart where
  | part (p : UIPart)
  | raw (j : Json)

/-- Embeds `convertToolPartToUI` (lines 202-243): requires a truthy `tool_toolCallId`
and `tool_state`; the input-streaming branch attaches no metadata, the other
states restore stored metadata as `callProviderMetadata`. -/
def convertToolPartToUI (part : DBPart) : Option UIPart :=
  if columnTruthyString part.tool_toolCallId && columnTruthyString part.tool_state then
    let name := jsDropChars part.type 5
    let toolCallId := (part.tool_toolCallId).getD ""
    match part.tool_state with
    | some st =>
      if st = "input-streaming" then
        some (.tool name toolCallId (.inputStreaming part.tool_input) none)
      else if st = "input-available" then
        some (.tool name toolCallId (.inputAvailable (columnToJson part.tool_input))
          (truthyMeta part.providerMetadata))
      else if st = "output-available" then
        some (.tool name toolCallId
          (.outputAvailable (columnToJson part.tool_input) (columnToJson part.tool_output))
          (truthyMeta part.providerMetadata))
      else if st = "output-error" then
        some (.tool name toolCallId
          (.outputError (columnToJson part.tool_input) ((part.tool_errorText).getD ""))
          (truthyMeta part.providerMetadata))
      else none
    | none => none
  else none

/-- Embeds `convertDataPartToUI` (lines 248-261). -/
def convertDataPartToUI (part : DBPart) : Option RestoredPart :=
  if columnTruthyString part.data_type && columnTruthyJson part.data_blob then
    some (.part (.data (jsDropChars part.type 5) (columnToJson part.data_blob)))
  else if columnTruthyJson part.data_blob then
    some (.raw (columnToJson part.data_blob))
  else none

/-- Embeds `mapPartToUIPart` (lines 343-377); the unsupported-type `throw` is the
`Except.error` case. -/
def mapPartToUIPart (part : DBPart) : Except String (Option RestoredPart) :=
  if part.type = "text" then
    .ok (some (.part (.text ((part.text_text).getD "") none)))
  else if part.type = "reasoning" then
    .ok (some (.part (.reasoning ((part.reasoning_text).getD "")
      (truthyMeta part.providerMetadata))))
  else if part.type = "file" then
    .ok (some (.part (.file ((part.file_mediaType).getD "")
      (if columnTruthyString part.file_filename then part.file_filename else none)
      ((part.file_url).getD "") none)))
  else if part.type = "source-url" then
    .ok (some (.part (.sourceUrl ((part.source_url_sourceId).getD "")
      ((part.source_url_url).getD "")
      (if columnTruthyString part.source_url_title then part.source_url_title else none)
      (truthyMeta part.providerMetadata))))
  else if part.type = "source-document" then
    .ok (some (.part (.sourceDocument ((part.source_document_sourceId).getD "")
      ((part.source_document_mediaType).getD "")
      ((part.source_document_title).getD "")
      (if columnTruthyString part.source_document_filename then
        part.source_document_filename else none)
      (truthyMeta part.providerMetadata))))
  else if part.type = "step-start" then
    .ok (some (.part .stepStart))
  else if jsStartsWith part.type "tool-" then
    .ok ((convertToolPartToUI part).map .part)
  else if jsStartsWith part.type "data-" then
    .ok (convertDataPartToUI part)
  else .error ( "Unsupported part type: " ++ part.type)

/-- Stable insertion used to model the `sort((a, b) => a.order - b.order)`
call (JavaScript array sort is stable). -/
def insertByOrder (p : DBPart) : List DBPart → List DBPart
  | [] => [p]
  | q :: rest =>
    if p.order ≤ q.order then p :: q :: rest else q :: insertByOrder p rest

def sortByOrder : List DBPart → List DBPart
  | [] => []
  | p :: rest => insertByOrder p (sortByOrder rest)

/-- Left-to-right conversion of the sorted rows, propagating the first
unsupported-type throw (the `.map` of the source). -/
def mapRowsToUIAux : List DBPart → Except String (List (Option RestoredPart))
  | [] => .ok []
  | db :: rest =>
    match mapPartToUIPart db with
    | .ok x =>
      match mapRowsToUIAux rest with
      | .ok xs => .ok (x :: xs)
      | .error e => .error e
    | .error e => .error e

/-- Embeds `mapDBPartsToUIParts` (lines 383-391): sort by `order`, convert each row
(propagating the unsupported-type throw), and drop the `null` results. -/
def mapDBPartsToUIParts (dbParts : List DBPart) :
    Except String (List RestoredPart) :=
  match mapRowsToUIAux (sortByOrder dbParts) with
  | .ok parts => .ok (parts.filterMap id)
  | .error e => .error e

/-- The type-plus-primary-payload view of a part: everything except provider
metadata. -/
inductive PartPayload where
  | text (text : String)
  | reasoning (text : String)
  | file (mediaType : String) (filename : Option String) (url : String)
  | sourceUrl (sourceId : String) (url : String) (title : Option String)
  | sourceDocument (sourceId : String) (mediaType : String) (title : String)
      (filename : Option String)
  | stepStart
  | tool (name : String) (toolCallId : String) (state : ToolStateData)
  | data (name : String) (d : Json)

def UIPart.payload : UIPart → PartPayload
  | .text t _ => .text t
  | .reasoning t _ => .reasoning t
  | .file mediaType filename url _ => .file mediaType filename url
  | .sourceUrl sourceId url title _ => .sourceUrl sourceId url title
  | .sourceDocument sourceId mediaType title filename _ =>
    .sourceDocument sourceId mediaType title filename
  | .stepStart => .stepStart
  | .tool name toolCallId state _ => .tool name toolCallId state
  | .data name d => .data name d

def restoredPayload : RestoredPart → Option PartPayload
  | .part p => some p.payload
  | .raw _ => none

def restoredTypeString : RestoredPart → Option String
  | .part p => some p.typeString
  | .raw _ => none

/-- The shapes on which the round trip is lossless: truthy data blobs and
`toolCallId`s (falsy ones are dropped by the UI-direction guards), no
filename/title that is the empty string rather than absent (those collapse to
absent), no JSON-null streaming input (collapses to absent), and no tool
named `invocation` (its type string collides with the skipped legacy format). -/
def toolStateWellFormed : ToolStateData → Bool
  | .inputStreaming (some .null) => false
  | _ => true

def wellFormedPart : UIPart → Bool
  | .text .. => true
  | .reasoning .. => true
  | .file _ filename _ _ => !(filename == some "")
  | .sourceUrl _ _ title _ => !(title == some "")
  | .sourceDocument _ _ _ filename _ => !(filename == some "")
  | .stepStart => true
  | .tool name toolCallId state _ =>
    !(name == "invocation") && !(toolCallId == "") && toolStateWellFormed state
  | .data name d => !(name == "") && d.isTruthy

/-- What the DB→UI direction reconstructs from a stored well-formed part:
the part itself with provider metadata normalized the way the restore
functions rebuild it (dropped for text, file and tool parts, filtered
through the truthiness guard elsewhere). -/
def restoreNormalize : UIPart → UIPart
  | .text t _ => .text t none
  | .reasoning t pm => .reasoning t (truthyMeta pm)
  | .file mediaType filename url _ => .file mediaType filename url none
  | .sourceUrl sourceId url title pm => .sourceUrl sourceId url title (truthyMeta pm)
  | .sourceDocument sourceId mediaType title filename pm =>
    .sourceDocument sourceId mediaType title filename (truthyMeta pm)
  | .stepStart => .stepStart
  | .tool name toolCallId state _ => .tool name toolCallId state none
  | .data name d => .data name d

/-! ## Tool gate lemmas -/

theorem mem_filterAffordableTools {tools : List ToolName} {budget : Int}
    {t : ToolName} (h : t ∈ filterAffordableTools tools budget) :
    (toolsDefinitions t).cost ≤ budget := by
  have := List.of_mem_filter h
  exact of_decide_eq_true this

theorem mem_preActiveTools_cost {isAnonymous : Bool} {anonLimits : AnonymousLimits}
    {modelDefinition : AppModelDefinition} {availableBudget : Int} {t : ToolName}
    (h : t ∈ preActiveTools isAnonymous anonLimits modelDefinition availableBudget) :
    (toolsDefinitions t).cost ≤ availableBudget := by
  unfold preActiveTools at h
  by_cases hin : modelDefinition.input = true
  · simp only [hin, if_true] at h
    by_cases hcond : (modelDefinition.reasoning &&
        (filterAffordableTools (if isAnonymous then anonLimits.availableTools else allTools)
          availableBudget).any (fun u => u = ToolName.deepResearch)) = true
    · simp only [hcond, if_true] at h
      exact mem_filterAffordableTools (List.mem_of_mem_filter h)
    · simp only [hcond, if_false] at h
      exact mem_filterAffordableTools h
  · simp only [Bool.not_eq_true] at hin
    simp [hin] at h

theorem getExplicitlyRequestedTools_cases {selectedTool : Option String}
    {l : List ToolName} (h : getExplicitlyRequestedTools selectedTool = some l) :
    l = [.deepResearch] ∨ l = [.webSearch] ∨ l = [.generateImage] ∨
      l = [.createDocument, .updateDocument] := by
  unfold getExplicitlyRequestedTools at h
  match selectedTool with
  | none => exact absurd h (by simp)
  | some s =>
    by_cases h1 : s = "deepResearch"
    · simp [h1] at h
      exact Or.inl h.symm
    · by_cases h2 : s = "webSearch"
      · simp [h1, h2] at h
        exact Or.inr (Or.inl h.symm)
      · by_cases h3 : s = "generateImage"
        · simp [h1, h2, h3] at h
          exact Or.inr (Or.inr (Or.inl h.symm))
        · by_cases h4 : s = "createDocument"
          · simp [h1, h2, h3, h4] at h
            exact Or.inr (Or.inr (Or.inr h.symm))
          · simp [h1, h2, h3, h4] at h

/-- Case split of `setupActiveTools` on a present explicit request, by the
value of the survival test. -/
theorem setupActiveTools_some_eq (isAnonymous : Bool) (anonLimits : AnonymousLimits)
    (baseModelCost : Int) (l : List ToolName) (modelDefinition : AppModelDefinition)
    (reservationBudget : Option Int) :
    setupActiveTools isAnonymous anonLimits baseModelCost (some l)
        modelDefinition reservationBudget =
      (if l.length > 0 &&
          !((preActiveTools isAnonymous anonLimits modelDefinition
              (computeAvailableBudget isAnonymous anonLimits reservationBudget
                baseModelCost)).any (fun t => l.contains t)) then
        { activeTools := [], error := some (insufficientBudgetMessage l) }
      else if l.length > 0 then
        { activeTools := l, error := none }
      else
        { activeTools := preActiveTools isAnonymous anonLimits modelDefinition
            (computeAvailableBudget isAnonymous anonLimits reservationBudget
              baseModelCost), error := none }) := by
  rfl

/-- When some explicitly requested tool survives the filter and all requested
tools share one cost, every activated tool is affordable. -/
theorem setupActiveTools_some_cost {isAnonymous : Bool} {anonLimits : AnonymousLimits}
    {baseModelCost : Int} {l : List ToolName} {modelDefinition : AppModelDefinition}
    {reservationBudget : Option Int}
    (huniform : ∀ t ∈ l, ∀ u ∈ l, (toolsDefinitions t).cost = (toolsDefinitions u).cost) :
    ∀ t ∈ (setupActiveTools isAnonymous anonLimits baseModelCost (some l)
        modelDefinition reservationBudget).activeTools,
      (toolsDefinitions t).cost ≤
        computeAvailableBudget isAnonymous anonLimits reservationBudget baseModelCost := by
  intro t ht
  rw [setupActiveTools_some_eq] at ht
  by_cases hlen : l.length > 0
  · cases hany : ((preActiveTools isAnonymous anonLimits modelDefinition
        (computeAvailableBudget isAnonymous anonLimits reservationBudget
          baseModelCost)).any (fun u => l.contains u)) with
    | false =>
      rw [hany] at ht
      simp [hlen] at ht
    | true =>
      rw [hany] at ht
      simp only [Bool.not_true, Bool.and_false, Bool.false_eq_true, if_false] at ht
      rw [if_pos hlen] at ht
      rcases List.any_eq_true.mp hany with ⟨u, hu, hul⟩
      have hul' : u ∈ l := by simpa using hul
      have hucost := mem_preActiveTools_cost hu
      have := huniform t ht u hul'
      omega
  · rw [if_neg (by simp [hlen]), if_neg hlen] at ht
    exact mem_preActiveTools_cost ht

/-- C1 as stated is false: with the fixed catalog, budget 1 (reservation
budget 1, base cost 0), a capable non-reasoning model and the explicitly
requested set `[getWeather, deepResearch]`, the gate activates `deepResearch`
(cost 50 > 1) without error, because `getWeather` alone survived the
affordability filter. -/
theorem C1_counterexample :
    ToolName.deepResearch ∈ (setupActiveTools false ⟨0, []⟩ 0
      (some [ToolName.getWeather, ToolName.deepResearch]) ⟨true, false⟩
      (some 1)).activeTools ∧
    (setupActiveTools false ⟨0, []⟩ 0
      (some [ToolName.getWeather, ToolName.deepResearch]) ⟨true, false⟩
      (some 1)).error = none ∧
    (toolsDefinitions ToolName.deepResearch).cost >
      computeAvailableBudget false ⟨0, []⟩ (some 1) 0 := by
  refine ⟨?_, ?_, ?_⟩ <;> decide

/-- C1 (amended): for the explicitly-requested sets the route can actually
produce (`getExplicitlyRequestedTools`, whose member tools always share one
catalog cost), every tool activated by `setupActiveTools` has cost at most
the available budget. -/
theorem C1_theorem (isAnonymous : Bool) (anonLimits : AnonymousLimits)
    (baseModelCost : Int) (selectedTool : Option String)
    (modelDefinition : AppModelDefinition) (reservationBudget : Option Int) :
    ∀ t ∈ (setupActiveTools isAnonymous anonLimits baseModelCost
        (getExplicitlyRequestedTools selectedTool) modelDefinition
        reservationBudget).activeTools,
      (toolsDefinitions t).cost ≤
        computeAvailableBudget isAnonymous anonLimits reservationBudget baseModelCost := by
  intro t ht
  cases hreq : getExplicitlyRequestedTools selectedTool with
  | none =>
    rw [hreq] at ht
    unfold setupActiveTools at ht
    simp only [] at ht
    exact mem_preActiveTools_cost ht
  | some l =>
    rw [hreq] at ht
    rcases getExplicitlyRequestedTools_cases hreq with h | h | h | h <;>
      subst h <;>
      exact setupActiveTools_some_cost (by decide) t ht

theorem C1_witness :
    (toolsDefinitions ToolName.webSearch).cost ≤
      computeAvailableBudget false ⟨0, []⟩ (some 10) 1 :=
  C1_theorem false ⟨0, []⟩ 1 (some "webSearch") ⟨true, false⟩ (some 10)
    ToolName.webSearch (by decide)

/-- C5: with a nonempty explicitly requested set, `setupActiveTools` returns
exactly the requested set when at least one requested tool survived the
affordability/capability filter, and otherwise fails with the
insufficient-budget error naming the requested tools (activating nothing) —
it never falls back to the default filtered set. -/
theorem C5_theorem (isAnonymous : Bool) (anonLimits : AnonymousLimits)
    (baseModelCost : Int) (requested : List ToolName)
    (modelDefinition : AppModelDefinition) (reservationBudget : Option Int)
    (hne : requested ≠ []) :
    ((∃ t ∈ preActiveTools isAnonymous anonLimits modelDefinition
          (computeAvailableBudget isAnonymous anonLimits reservationBudget baseModelCost),
        t ∈ requested) →
      setupActiveTools isAnonymous anonLimits baseModelCost (some requested)
          modelDefinition reservationBudget =
        { activeTools := requested, error := none }) ∧
    ((∀ t ∈ preActiveTools isAnonymous anonLimits modelDefinition
          (computeAvailableBudget isAnonymous anonLimits reservationBudget baseModelCost),
        t ∉ requested) →
      setupActiveTools isAnonymous anonLimits baseModelCost (some requested)
          modelDefinition reservationBudget =
        { activeTools := [], error := some (insufficientBudgetMessage requested) }) := by
  have hlen : requested.length > 0 := List.length_pos.mpr hne
  constructor
  · intro hex
    rw [setupActiveTools_some_eq]
    have hany : (preActiveTools isAnonymous anonLimits modelDefinition
        (computeAvailableBudget isAnonymous anonLimits reservationBudget baseModelCost)).any
          (fun t => requested.contains t) = true := by
      rcases hex with ⟨t, ht, htr⟩
      refine List.any_eq_true.mpr ⟨t, ht, ?_⟩
      simpa using htr
    rw [hany]
    simp only [Bool.not_true, Bool.and_false, Bool.false_eq_true, if_false]
    rw [if_pos hlen]
  · intro hall
    rw [setupActiveTools_some_eq]
    have hany : (preActiveTools isAnonymous anonLimits modelDefinition
        (computeAvailableBudget isAnonymous anonLimits reservationBudget baseModelCost)).any
          (fun t => requested.contains t) = false := by
      refine List.any_eq_false.mpr ?_
      intro t ht
      have := hall t ht
      simpa using this
    rw [hany]
    simp only [Bool.not_false, Bool.and_true]
    rw [if_pos (decide_eq_true hlen)]

theorem C5_witness :
    setupActiveTools false ⟨0, []⟩ 1 (some [ToolName.webSearch]) ⟨true, false⟩
        (some 10) = { activeTools := [ToolName.webSearch], error := none } ∧
    setupActiveTools false ⟨0, []⟩ 1 (some [ToolName.deepResearch]) ⟨true, true⟩
        (some 10) =
      { activeTools := [],
        error := some (insufficientBudgetMessage [ToolName.deepResearch]) } :=
  ⟨(C5_theorem false ⟨0, []⟩ 1 [ToolName.webSearch] ⟨true, false⟩ (some 10)
      (by decide)).1 (by decide),
   (C5_theorem false ⟨0, []⟩ 1 [ToolName.deepResearch] ⟨true, true⟩ (some 10)
      (by decide)).2 (by decide)⟩

/-- C2 fails on the code: once the credit reservation has been created,
a tool-gating failure (here: `deepResearch` explicitly requested on a
reasoning model) and an input-token-ceiling failure both return their error
response while the ledger still holds an active reservation — nothing on
those paths releases it. -/
theorem C2_theorem :
    (initializeChatRequest false true true ⟨0⟩ 100 1 (some "deepResearch")
        ⟨true, true⟩ ⟨0, []⟩ 10 1000).1 =
      .error (.insufficientToolBudget (insufficientBudgetMessage [.deepResearch])) ∧
    (initializeChatRequest false true true ⟨0⟩ 100 1 (some "deepResearch")
        ⟨true, true⟩ ⟨0, []⟩ 10 1000).2.reservationStatus = .active ∧
    (initializeChatRequest false true true ⟨0⟩ 100 1 none
        ⟨true, false⟩ ⟨0, []⟩ 50 10).1 = .error .inputTooLong ∧
    (initializeChatRequest false true true ⟨0⟩ 100 1 none
        ⟨true, false⟩ ⟨0, []⟩ 50 10).2.reservationStatus = .active := by
  refine ⟨rfl, rfl, rfl, rfl⟩

/-- C8 fails on the code: an anonymous turn that passes every check leaves
`remainingCredits` lower by twice the base model cost before generation
(decremented once in `handleAnonymousUserSetup` and again in
`handleCreditReservation`), and the error handler refunds only once, so a
failed anonymous turn nets out at minus one base cost (10 → 8 → 9 here). -/
theorem C8_theorem :
    (initializeChatRequest true true true ⟨10⟩ 0 1 none ⟨true, false⟩
        ⟨10, []⟩ 10 1000).2.anonSession = some ⟨8⟩ ∧
    (Prod.fst (onErrorHandler 1
        { assistantMessage := none, reservationStatus := .noReservation,
          anonSession := some ⟨8⟩ })).anonSession = some ⟨9⟩ := by
  refine ⟨?_, ?_⟩ <;> decide

/-- C6 as stated is false at this input: after the placeholder save, the
streaming error handler releases the reservation but leaves the persisted
assistant message exactly as it was — `isPartial` still `true`. -/
theorem C6_counterexample :
    (Prod.fst (onErrorHandler 1 (savePlaceholderAssistantMessage false
        { assistantMessage := none, reservationStatus := .active,
          anonSession := none }))).reservationStatus = .released ∧
    (Prod.fst (onErrorHandler 1 (savePlaceholderAssistantMessage false
        { assistantMessage := none, reservationStatus := .active,
          anonSession := none }))).assistantMessage =
      some { partialFlag := true, parts := [] } := by
  refine ⟨?_, ?_⟩ <;> decide

/-- C6 (amended): on a streaming error the `onError` handler releases the
credit reservation (and refunds the anonymous counter), but performs no
message update at all: the placeholder assistant message persisted before
generation keeps `isPartial = true` on this path; only the separate finish
handler rewrites it. -/
theorem C6_theorem (baseModelCost : Int) (st : TurnState) :
    (Prod.fst (onErrorHandler baseModelCost st)).reservationStatus =
      cleanupReservation st.reservationStatus ∧
    (Prod.fst (onErrorHandler baseModelCost st)).assistantMessage =
      st.assistantMessage ∧
    (st.reservationStatus = .active →
      (Prod.fst (onErrorHandler baseModelCost st)).reservationStatus = .released) := by
  refine ⟨rfl, rfl, ?_⟩
  intro h
  simp [onErrorHandler, h, cleanupReservation]

theorem C6_witness :
    ReservationStatus.active = ReservationStatus.active ∧
    (Prod.fst (onErrorHandler 2
        { assistantMessage := some { partialFlag := true, parts := [] },
          reservationStatus := .active, anonSession := none })).reservationStatus =
      ReservationStatus.released :=
  ⟨rfl,
   (C6_theorem 2
     { assistantMessage := some { partialFlag := true, parts := [] },
       reservationStatus := .active, anonSession := none }).2.2 rfl⟩

/-- C7: on the concluded-stream fallback path, a most-recent message that is
assistant-authored, non-partial and at most 15 seconds old yields the single
synthesized `data-appendMessage` event, while an absent, non-assistant or
older-than-15-seconds most recent message yields the empty stream. -/
theorem C7_theorem (messages : List DBMessage) (resumeRequestedAtMs : Int) :
    (∀ m, messages.getLast? = some m → m.role = "assistant" →
      m.partialFlag = false →
      jsDifferenceInSeconds resumeRequestedAtMs m.createdAtMs ≤ 15 →
      handleFallbackStream messages resumeRequestedAtMs = .appendMessage m) ∧
    (messages.getLast? = none →
      handleFallbackStream messages resumeRequestedAtMs = .emptyStream) ∧
    (∀ m, messages.getLast? = some m → m.role ≠ "assistant" →
      handleFallbackStream messages resumeRequestedAtMs = .emptyStream) ∧
    (∀ m, messages.getLast? = some m →
      jsDifferenceInSeconds resumeRequestedAtMs m.createdAtMs > 15 →
      handleFallbackStream messages resumeRequestedAtMs = .emptyStream) := by
  refine ⟨?_, ?_, ?_, ?_⟩
  · intro m hm hrole hpartial hfresh
    unfold handleFallbackStream
    rw [hm]
    simp [hrole, not_lt.mpr hfresh]
  · intro hm
    unfold handleFallbackStream
    rw [hm]
  · intro m hm hrole
    unfold handleFallbackStream
    rw [hm]
    simp [hrole]
  · intro m hm hold
    unfold handleFallbackStream
    rw [hm]
    by_cases hrole : m.role = "assistant"
    · simp [hrole, hold]
    · simp [hrole]

theorem C7_witness :
    handleFallbackStream [ { role := "assistant", createdAtMs := 0, partialFlag := false } ]
      5000 = .appendMessage { role := "assistant", createdAtMs := 0, partialFlag := false } ∧
    handleFallbackStream [ { role := "assistant", createdAtMs := 0, partialFlag := false } ]
      30000 = .emptyStream :=
  ⟨(C7_theorem [ { role := "assistant", createdAtMs := 0, partialFlag := false } ] 5000).1
      _ rfl rfl rfl (by decide),
   (C7_theorem [ { role := "assistant", createdAtMs := 0, partialFlag := false } ] 30000).2.2.2
      _ rfl (by decide)⟩

/-- C9 as stated is false for the declared sheet reducer:
`SheetArtifact.reduceDelta` is string concatenation, so folding the nonempty
delta sequence `[ "a", "ab"]` over the empty value yields `"aab"`, not the
last delta `"ab"`. -/
theorem C9_counterexample :
    List.foldl SheetArtifact_reduceDelta "" [ "a", "ab" ] = "aab" ∧
    ( "aab" : String) ≠ "ab" := by
  refine ⟨rfl, by decide⟩

theorem streamSheetLoopAux_spec (partials : List (Option String)) :
    ∀ content emitted, ∃ extra,
      streamSheetLoopAux content emitted partials =
        { content := extra.getLastD content, emitted := emitted ++ extra } ∧
      ∀ d ∈ extra, d ≠ "" := by
  induction partials with
  | nil =>
    intro content emitted
    exact ⟨[], by simp [streamSheetLoopAux], by simp⟩
  | cons head rest ih =>
    intro content emitted
    match head with
    | none =>
      rcases ih content emitted with ⟨extra, heq, hne⟩
      exact ⟨extra, by simpa [streamSheetLoopAux] using heq, hne⟩
    | some csv =>
      by_cases hcsv : csv = ""
      · rcases ih content emitted with ⟨extra, heq, hne⟩
        exact ⟨extra, by simpa [streamSheetLoopAux, hcsv] using heq, hne⟩
      · rcases ih csv (emitted ++ [csv]) with ⟨extra, heq, hne⟩
        refine ⟨csv :: extra, ?_, ?_⟩
        · show streamSheetLoopAux content emitted (some csv :: rest) = _
          simp only [streamSheetLoopAux]
          rw [if_pos hcsv, heq, List.getLastD_cons]
          simp
        · intro d hd
          rcases List.mem_cons.mp hd with h | h
          · subst h; exact hcsv
          · exact hne d h

/-- C9 (amended): the sheet streamer itself accumulates by full replacement —
after the loop, the accumulated content equals the last `data-sheetDelta`
value emitted (empty when none was emitted), every emitted delta is a
non-empty snapshot, and folding the pure replacement reducer over the emitted
sequence reproduces the content; the declared `SheetArtifact.reduceDelta` is
concatenation but is not what the sheet stream uses. -/
theorem C9_theorem (partials : List (Option String)) :
    (streamSheetLoop partials).content =
      ((streamSheetLoop partials).emitted).getLastD "" ∧
    (streamSheetLoop partials).content =
      List.foldl (fun _acc d => d) "" ((streamSheetLoop partials).emitted) ∧
    ∀ d ∈ (streamSheetLoop partials).emitted, d ≠ "" := by
  rcases streamSheetLoopAux_spec partials "" [] with ⟨extra, heq, hne⟩
  have h1 : streamSheetLoop partials =
      { content := extra.getLastD "", emitted := extra } := by
    simpa [streamSheetLoop] using heq
  rw [h1]
  refine ⟨rfl, ?_, hne⟩
  clear h1 hne heq
  induction extra with
  | nil => rfl
  | cons x xs ih =>
    simp [List.getLastD_cons]
    clear ih
    induction xs generalizing x with
    | nil => rfl
    | cons y ys ih => simpa [List.getLastD_cons] using ih y

/-! ## Token budgeter lemmas -/

theorem calculateMessagesTokens_cons (enc : String → Nat) (m : MM) (rest : List MM) :
    calculateMessagesTokens enc (m :: rest) =
      messageTokens enc m + calculateMessagesTokens enc rest := rfl

theorem messageTokens_ge_five (enc : String → Nat) (m : MM) :
    5 ≤ messageTokens enc m := by
  unfold messageTokens
  omega

theorem calculateMessagesTokens_eq_nil {enc : String → Nat} {l : List MM}
    (h : calculateMessagesTokens enc l = 0) : l = [] := by
  cases l with
  | nil => rfl
  | cons m rest =>
    have h5 := messageTokens_ge_five enc m
    rw [calculateMessagesTokens_cons] at h
    omega

/-- After `removeMessagesUntilFit` the remaining messages always fit (for a
nonnegative budget): the loop only stops at a fitting list or at the empty
list. In particular the subsequent `currentTokens > availableTokens` branch
of `truncateMessages` is unreachable. -/
theorem removeMessagesUntilFit_fits (enc : String → Nat) (msgs : List MM)
    (avail : Int) (h : 0 ≤ avail) :
    (calculateMessagesTokens enc (removeMessagesUntilFit enc msgs avail) : Int) ≤ avail := by
  induction msgs with
  | nil => simpa [removeMessagesUntilFit, calculateMessagesTokens] using h
  | cons m rest ih =>
    unfold removeMessagesUntilFit
    by_cases hgt : (calculateMessagesTokens enc (m :: rest) : Int) > avail
    · rw [if_pos hgt]; exact ih
    · rw [if_neg hgt]; omega

theorem removeMessagesUntilFit_noop {enc : String → Nat} {msgs : List MM}
    {avail : Int} (h : (calculateMessagesTokens enc msgs : Int) ≤ avail) :
    removeMessagesUntilFit enc msgs avail = msgs := by
  cases msgs with
  | nil => rfl
  | cons m rest =>
    unfold removeMessagesUntilFit
    rw [if_neg (not_lt.mpr h)]

/-- The function `trimPrompt` returns an already-fitting prompt unchanged. -/
theorem trimPrompt_of_le {enc : String → Nat} {p : String} {c : Int}
    (h : (enc p : Int) ≤ c) : trimPrompt enc p c = p := by
  unfold trimPrompt
  by_cases hp : p = ""
  · subst hp
    simp [trimPromptF]
  · rw [trimPromptF]
    simp only [if_neg hp]
    rw [if_pos h]

theorem truncateMessages_nil (enc : String → Nat) (maxTokens : Int)
    (preserveSystemMessage : Bool) :
    truncateMessages enc [] maxTokens preserveSystemMessage = [] := rfl

/-- Evaluating `truncateMessages` on a pinned system head with a positive remaining
budget: keep the system message and evict from the rest until it fits (the
content-trimming branch cannot fire). -/
theorem truncateMessages_cons_sys (enc : String → Nat) (m : MM) (rest : List MM)
    (maxTokens : Int) (hsys : m.role = "system")
    (hpos : 0 < maxTokens - (calculateMessagesTokens enc [m] : Int)) :
    truncateMessages enc (m :: rest) maxTokens true =
      m :: removeMessagesUntilFit enc rest
        (maxTokens - (calculateMessagesTokens enc [m] : Int)) := by
  have hfits := removeMessagesUntilFit_fits enc rest
    (maxTokens - (calculateMessagesTokens enc [m] : Int)) (le_of_lt hpos)
  unfold truncateMessages
  simp only [List.isEmpty_cons, Bool.false_eq_true, if_false, if_true,
    List.head?_cons, List.tail_cons, hsys, Option.isSome_some]
  rw [if_neg (not_le.mpr hpos)]
  rw [if_neg (not_lt.mpr hfits)]

/-- Evaluating `truncateMessages` on a pinned system head whose own cost already reaches
the budget: degrade to the trimmed system message alone. -/
theorem truncateMessages_cons_sys_insufficient (enc : String → Nat) (m : MM)
    (rest : List MM) (maxTokens : Int) (hsys : m.role = "system")
    (hnpos : maxTokens - (calculateMessagesTokens enc [m] : Int) ≤ 0) :
    truncateMessages enc (m :: rest) maxTokens true =
      handleInsufficientTokens enc (some m) maxTokens := by
  unfold truncateMessages
  simp only [List.isEmpty_cons, Bool.false_eq_true, if_false, if_true,
    List.head?_cons, List.tail_cons, hsys, Option.isSome_some]
  rw [if_pos hnpos]

/-- Evaluating `truncateMessages` with no pinned system head and a positive budget:
plain eviction from the front (again the content-trimming branch cannot
fire). -/
theorem truncateMessages_cons_nosys (enc : String → Nat) (m : MM) (rest : List MM)
    (maxTokens : Int) (hsys : ¬m.role = "system") (hpos : 0 < maxTokens) :
    truncateMessages enc (m :: rest) maxTokens true =
      removeMessagesUntilFit enc (m :: rest) maxTokens := by
  have hfits := removeMessagesUntilFit_fits enc (m :: rest) maxTokens (le_of_lt hpos)
  unfold truncateMessages
  simp only [List.isEmpty_cons, Bool.false_eq_true, if_false, if_true,
    List.head?_cons, List.tail_cons, hsys, Option.isSome_none, Option.isSome_some]
  rw [if_neg (by omega : ¬maxTokens - ((0 : Nat) : Int) ≤ 0)]
  rw [if_neg (not_lt.mpr (by simpa using hfits))]
  norm_num

/-- C3: for every token counter, message list and budget at or above the
minimum floor (one more than the pinned system message's own token count),
`truncateMessages` returns a list whose estimated token count is at most the
budget, and applying it a second time with the same budget returns the first
result unchanged. -/
theorem C3_theorem (enc : String → Nat) (messages : List MM) (maxTokens : Int)
    (h : minTokenFloor enc messages true ≤ maxTokens) :
    (calculateMessagesTokens enc (truncateMessages enc messages maxTokens true) : Int)
        ≤ maxTokens ∧
    truncateMessages enc (truncateMessages enc messages maxTokens true) maxTokens true =
      truncateMessages enc messages maxTokens true := by
  cases messages with
  | nil =>
    have h1 : minTokenFloor enc [] true = 1 := rfl
    rw [h1] at h
    rw [truncateMessages_nil]
    exact ⟨by simpa [calculateMessagesTokens] using (by omega : (0:Int) ≤ maxTokens),
      truncateMessages_nil enc maxTokens true⟩
  | cons m rest =>
    by_cases hsys : m.role = "system"
    · -- pinned system message with a positive remaining budget
      have hfloor : minTokenFloor enc (m :: rest) true =
          (calculateMessagesTokens enc [m] : Int) + 1 := by
        unfold minTokenFloor
        simp [hsys]
      rw [hfloor] at h
      have hpos : 0 < maxTokens - (calculateMessagesTokens enc [m] : Int) := by omega
      have hfits := removeMessagesUntilFit_fits enc rest
        (maxTokens - (calculateMessagesTokens enc [m] : Int)) (le_of_lt hpos)
      rw [truncateMessages_cons_sys enc m rest maxTokens hsys hpos]
      have hm : calculateMessagesTokens enc [m] = messageTokens enc m := by
        simp [calculateMessagesTokens]
      constructor
      · rw [calculateMessagesTokens_cons]
        push_cast
        push_cast at hfits
        omega
      · rw [truncateMessages_cons_sys enc m _ maxTokens hsys hpos]
        rw [removeMessagesUntilFit_noop hfits]
    · -- no pinned system message
      have hfloor : minTokenFloor enc (m :: rest) true = 1 := by
        unfold minTokenFloor
        simp [hsys]
      rw [hfloor] at h
      have hpos : (0:Int) < maxTokens := by omega
      rw [truncateMessages_cons_nosys enc m rest maxTokens hsys hpos]
      have hfits := removeMessagesUntilFit_fits enc (m :: rest) maxTokens (le_of_lt hpos)
      refine ⟨hfits, ?_⟩
      cases hf : removeMessagesUntilFit enc (m :: rest) maxTokens with
      | nil => exact truncateMessages_nil enc maxTokens true
      | cons m' t' =>
        rw [hf] at hfits
        rw [calculateMessagesTokens_cons] at hfits
        by_cases hsys' : m'.role = "system"
        · by_cases hpos' : 0 < maxTokens - (calculateMessagesTokens enc [m'] : Int)
          · -- the evicted remainder happens to start with a system message
            rw [truncateMessages_cons_sys enc m' t' maxTokens hsys' hpos']
            have hm' : calculateMessagesTokens enc [m'] = messageTokens enc m' := by
              simp [calculateMessagesTokens]
            have hle : (calculateMessagesTokens enc t' : Int) ≤
                maxTokens - (calculateMessagesTokens enc [m'] : Int) := by
              push_cast at hfits ⊢
              omega
            rw [removeMessagesUntilFit_noop hle]
          · -- the budget is exactly consumed by that system message
            push_neg at hpos'
            rw [truncateMessages_cons_sys_insufficient enc m' t' maxTokens hsys' hpos']
            have hm' : calculateMessagesTokens enc [m'] = messageTokens enc m' := by
              simp [calculateMessagesTokens]
            have ht' : calculateMessagesTokens enc t' = 0 := by
              push_cast at hfits hpos'
              omega
            have ht'nil : t' = [] := calculateMessagesTokens_eq_nil ht'
            subst ht'nil
            have heq : (messageTokens enc m' : Int) = maxTokens := by
              push_cast at hfits hpos' ⊢
              omega
            obtain ⟨role', content'⟩ := m'
            unfold handleInsufficientTokens
            cases content' with
            | parts l => rfl
            | str s =>
              have hs : (enc s : Int) ≤ maxTokens := by
                unfold messageTokens mmContentTokens at heq
                push_cast at heq ⊢
                omega
              simp only [trimPrompt_of_le hs]
        · rw [truncateMessages_cons_nosys enc m' t' maxTokens hsys' hpos]
          refine removeMessagesUntilFit_noop ?_
          rw [calculateMessagesTokens_cons]
          exact hfits

theorem C3_witness :
    (calculateMessagesTokens (fun s => s.length)
        (truncateMessages (fun s => s.length)
          [ { role := "system", content := .str "hi" },
            { role := "user", content := .str "hello" } ] 100 true) : Int) ≤ 100 ∧
    truncateMessages (fun s => s.length)
        (truncateMessages (fun s => s.length)
          [ { role := "system", content := .str "hi" },
            { role := "user", content := .str "hello" } ] 100 true) 100 true =
      truncateMessages (fun s => s.length)
        [ { role := "system", content := .str "hi" },
          { role := "user", content := .str "hello" } ] 100 true :=
  C3_theorem (fun s => s.length)
    [ { role := "system", content := .str "hi" },
      { role := "user", content := .str "hello" } ] 100 (by decide)

/-- C4 fails on the code: a single 30-character user message against budget
20 (39 estimated tokens under the one-token-per-character counter) is evicted
whole by `removeMessagesUntilFit`, so `truncateMessages` returns the empty
list — the most recent message is never kept and content-trimmed (see
`removeMessagesUntilFit_fits`: the guard of the trimming branch is
unreachable). -/
theorem C4_theorem :
    calculateMessagesTokens (fun s => s.length)
        [ { role := "user", content := .str "xxxxxxxxxxxxxxxxxxxxxxxxxxxxxx" } ] = 39 ∧
    truncateMessages (fun s => s.length)
        [ { role := "user", content := .str "xxxxxxxxxxxxxxxxxxxxxxxxxxxxxx" } ]
        20 true = [] := by
  exact ⟨rfl, rfl⟩

theorem C9_witness :
    (streamSheetLoop [ some "a", none, some "", some "ab" ]).content =
      ((streamSheetLoop [ some "a", none, some "", some "ab" ]).emitted).getLastD "" :=
  (C9_theorem [ some "a", none, some "", some "ab" ]).1

/-! ## Message mapping lemmas -/

theorem appendNeOfNoPrefixData {pre L : String} (s : String)
    (h : ¬(pre.data <+: L.data)) : pre ++ s ≠ L := by
  intro heq
  exact h ⟨s.data, by rw [← String.data_append, heq]⟩

theorem append_left_cancel_str (pre : String) {a b : String} (h : pre ++ a = pre ++ b) :
    a = b := by
  have hd := congrArg String.data h
  rw [String.data_append, String.data_append] at hd
  exact congrArg String.mk (List.append_cancel_left hd)

theorem jsStartsWith_append (pre s : String) : jsStartsWith (pre ++ s) pre = true := by
  unfold jsStartsWith
  rw [String.data_append]
  exact List.isPrefixOf_iff_prefix.mpr ⟨s.data, rfl⟩

theorem jsStartsWithFalseOfHeadNe {p q : String} (hlen : p.data.length = q.data.length)
    (hne : p.data ≠ q.data) (s : String) : ¬(jsStartsWith (q ++ s) p = true) := by
  intro h
  unfold jsStartsWith at h
  rw [String.data_append] at h
  rcases List.isPrefixOf_iff_prefix.mp h with ⟨t, ht⟩
  exact hne (List.append_inj_left ht hlen)

theorem jsDropChars_append (pre s : String) :
    jsDropChars (pre ++ s) pre.data.length = s := by
  unfold jsDropChars
  rw [String.data_append, List.drop_left]

theorem jsDropChars_tool (s : String) : jsDropChars ( "tool-" ++ s) 5 = s :=
  jsDropChars_append "tool-" s

theorem jsDropChars_data (s : String) : jsDropChars ( "data-" ++ s) 5 = s :=
  jsDropChars_append "data-" s

theorem truthyMeta_idem (o : Option Json) : truthyMeta (truthyMeta o) = truthyMeta o := by
  cases o with
  | none => rfl
  | some j =>
    by_cases h : j.isTruthy = true
    · simp [truthyMeta, h]
    · simp [truthyMeta, h]

theorem toolStateWellFormed_inputStreaming {input : Option Json}
    (h : toolStateWellFormed (.inputStreaming input) = true) :
    input ≠ some Json.null := by
  intro he
  subst he
  exact absurd h (by decide)

theorem columnTruthy_restore {o : Option String} (h : o ≠ some "") :
    (if columnTruthyString o then o else none) = o := by
  cases o with
  | none => rfl
  | some s =>
    have hs : s ≠ "" := fun h' => h (by rw [h'])
    simp [columnTruthyString, hs]

theorem columnToJson_jsonToColumn (j : Json) : columnToJson (jsonToColumn j) = j := by
  cases j <;> rfl

theorem optJsonToColumn_eq {o : Option Json} (h : o ≠ some Json.null) :
    optJsonToColumn o = o := by
  cases o with
  | none => rfl
  | some j => cases j <;> first | exact absurd rfl h | rfl

theorem jsonToColumn_of_truthy {d : Json} (h : d.isTruthy = true) :
    jsonToColumn d = some d := by
  cases d <;> first | simpa [Json.isTruthy] using h | rfl

/-- The function `mapPartToUIPart` dispatches a `tool-`-typed row to `convertToolPartToUI`. -/
theorem mapPartToUIPart_toolType {db : DBPart} (name : String)
    (htype : db.type = "tool-" ++ name) :
    mapPartToUIPart db = .ok ((convertToolPartToUI db).map .part) := by
  unfold mapPartToUIPart
  rw [htype]
  rw [if_neg (appendNeOfNoPrefixData name (by decide)),
    if_neg (appendNeOfNoPrefixData name (by decide)),
    if_neg (appendNeOfNoPrefixData name (by decide)),
    if_neg (appendNeOfNoPrefixData name (by decide)),
    if_neg (appendNeOfNoPrefixData name (by decide)),
    if_neg (appendNeOfNoPrefixData name (by decide)),
    if_pos (jsStartsWith_append "tool-" name)]

/-- The function `mapPartToUIPart` dispatches a `data-`-typed row to `convertDataPartToUI`. -/
theorem mapPartToUIPart_dataType {db : DBPart} (name : String)
    (htype : db.type = "data-" ++ name) :
    mapPartToUIPart db = .ok (convertDataPartToUI db) := by
  unfold mapPartToUIPart
  rw [htype]
  rw [if_neg (appendNeOfNoPrefixData name (by decide)),
    if_neg (appendNeOfNoPrefixData name (by decide)),
    if_neg (appendNeOfNoPrefixData name (by decide)),
    if_neg (appendNeOfNoPrefixData name (by decide)),
    if_neg (appendNeOfNoPrefixData name (by decide)),
    if_neg (appendNeOfNoPrefixData name (by decide)),
    if_neg (jsStartsWithFalseOfHeadNe (by decide) (by decide) name),
    if_pos (jsStartsWith_append "data-" name)]

theorem convertDataPartToUI_eq (db : DBPart)
    (h1 : columnTruthyString db.data_type = true)
    (h2 : columnTruthyJson db.data_blob = true) :
    convertDataPartToUI db =
      some (.part (.data (jsDropChars db.type 5) (columnToJson db.data_blob))) := by
  unfold convertDataPartToUI
  rw [if_pos (by rw [h1, h2]; rfl)]

theorem convertToolPartToUI_inputStreaming (db : DBPart)
    (h1 : columnTruthyString db.tool_toolCallId = true)
    (hst : db.tool_state = some "input-streaming") :
    convertToolPartToUI db = some (.tool (jsDropChars db.type 5)
      ((db.tool_toolCallId).getD "") (.inputStreaming db.tool_input) none) := by
  unfold convertToolPartToUI
  rw [hst]
  rw [if_pos (by rw [h1]; rfl)]
  rfl

theorem convertToolPartToUI_inputAvailable (db : DBPart)
    (h1 : columnTruthyString db.tool_toolCallId = true)
    (hst : db.tool_state = some "input-available") :
    convertToolPartToUI db = some (.tool (jsDropChars db.type 5)
      ((db.tool_toolCallId).getD "")
      (.inputAvailable (columnToJson db.tool_input))
      (truthyMeta db.providerMetadata)) := by
  unfold convertToolPartToUI
  rw [hst]
  rw [if_pos (by rw [h1]; rfl)]
  rfl

theorem convertToolPartToUI_outputAvailable (db : DBPart)
    (h1 : columnTruthyString db.tool_toolCallId = true)
    (hst : db.tool_state = some "output-available") :
    convertToolPartToUI db = some (.tool (jsDropChars db.type 5)
      ((db.tool_toolCallId).getD "")
      (.outputAvailable (columnToJson db.tool_input) (columnToJson db.tool_output))
      (truthyMeta db.providerMetadata)) := by
  unfold convertToolPartToUI
  rw [hst]
  rw [if_pos (by rw [h1]; rfl)]
  rfl

theorem convertToolPartToUI_outputError (db : DBPart)
    (h1 : columnTruthyString db.tool_toolCallId = true)
    (hst : db.tool_state = some "output-error") :
    convertToolPartToUI db = some (.tool (jsDropChars db.type 5)
      ((db.tool_toolCallId).getD "")
      (.outputError (columnToJson db.tool_input) ((db.tool_errorText).getD ""))
      (truthyMeta db.providerMetadata)) := by
  unfold convertToolPartToUI
  rw [hst]
  rw [if_pos (by rw [h1]; rfl)]
  rfl

/-- Transitivity with the midpoint given positionally (the first proof is
definitional in every use below). -/
theorem eq_trans_via {α : Sort _} (b : α) {a c : α} (h1 : a = b) (h2 : b = c) :
    a = c := h1.trans h2

/-- One-part round trip: a well-formed part stores as exactly one row carrying
its index as `order`, and that row restores to the part with metadata
normalized. -/
theorem mapPart_roundTrip {p : UIPart} (hw : wellFormedPart p = true)
    (i : Nat) (mid : String) :
    ∃ db : DBPart, mapPartToDBPart p i mid = some db ∧ db.order = i ∧
      mapPartToUIPart db = .ok (some (.part (restoreNormalize p))) := by
  cases p with
  | text t pm => exact ⟨_, rfl, rfl, rfl⟩
  | reasoning t pm =>
    refine ⟨_, rfl, rfl, eq_trans_via
      (Except.ok (some (RestoredPart.part
        (UIPart.reasoning t (truthyMeta (truthyMeta pm)))))) rfl ?_⟩
    rw [truthyMeta_idem]
    rfl
  | file mediaType filename url pm =>
    have hfn : filename ≠ some "" := by
      simpa [wellFormedPart] using hw
    refine ⟨_, rfl, rfl, eq_trans_via
      (Except.ok (some (RestoredPart.part (UIPart.file mediaType
        (if columnTruthyString filename then filename else none) url none)))) rfl ?_⟩
    rw [columnTruthy_restore hfn]
    rfl
  | sourceUrl sourceId url title pm =>
    have ht : title ≠ some "" := by
      simpa [wellFormedPart] using hw
    refine ⟨_, rfl, rfl, eq_trans_via
      (Except.ok (some (RestoredPart.part (UIPart.sourceUrl sourceId url
        (if columnTruthyString title then title else none)
        (truthyMeta (truthyMeta pm)))))) rfl ?_⟩
    rw [columnTruthy_restore ht, truthyMeta_idem]
    rfl
  | sourceDocument sourceId mediaType title filename pm =>
    have hfn : filename ≠ some "" := by
      simpa [wellFormedPart] using hw
    refine ⟨_, rfl, rfl, eq_trans_via
      (Except.ok (some (RestoredPart.part
        (UIPart.sourceDocument sourceId mediaType title
          (if columnTruthyString filename then filename else none)
          (truthyMeta (truthyMeta pm)))))) rfl ?_⟩
    rw [columnTruthy_restore hfn, truthyMeta_idem]
    rfl
  | stepStart => exact ⟨_, rfl, rfl, rfl⟩
  | data name d =>
    have hw' : name ≠ "" ∧ d.isTruthy = true := by
      simpa [wellFormedPart] using hw
    have hinv : UIPart.typeString (.data name d) ≠ "tool-invocation" := by
      show "data-" ++ name ≠ "tool-invocation"
      exact appendNeOfNoPrefixData name (by decide)
    refine ⟨{ messageId := mid, order := i, type := "data-" ++ name,
              data_type := some name, data_blob := jsonToColumn d }, ?_, rfl, ?_⟩
    · unfold mapPartToDBPart
      rw [if_neg hinv]
      rfl
    · rw [mapPartToUIPart_dataType name rfl]
      rw [convertDataPartToUI_eq
        ({ messageId := mid, order := i, type := "data-" ++ name,
                 data_type := some name, data_blob := jsonToColumn d })
        (by simp [columnTruthyString, hw'.1])
        (by show columnTruthyJson (jsonToColumn d) = true
            rw [jsonToColumn_of_truthy hw'.2]
            exact hw'.2)]
      show Except.ok (some (RestoredPart.part (UIPart.data
        (jsDropChars ( "data-" ++ name) 5) (columnToJson (jsonToColumn d))))) = _
      rw [jsDropChars_data, columnToJson_jsonToColumn]
      rfl
  | tool name toolCallId st cpm =>
    have hw' : name ≠ "invocation" ∧ toolCallId ≠ "" ∧
        toolStateWellFormed st = true := by
      have hw2 : ((!(name == "invocation") && !(toolCallId == "")) &&
          toolStateWellFormed st) = true := hw
      rw [Bool.and_eq_true, Bool.and_eq_true] at hw2
      exact ⟨by simpa using hw2.1.1, by simpa using hw2.1.2, hw2.2⟩
    have hinv : UIPart.typeString (.tool name toolCallId st cpm) ≠ "tool-invocation" := by
      show "tool-" ++ name ≠ "tool-invocation"
      intro h
      exact hw'.1 (append_left_cancel_str "tool-"
        (by rw [h]; decide : "tool-" ++ name = "tool-" ++ "invocation"))
    cases st with
    | inputStreaming input =>
      have hin : input ≠ some Json.null :=
        toolStateWellFormed_inputStreaming hw'.2.2
      refine ⟨{ messageId := mid, order := i, type := "tool-" ++ name,
                tool_name := some name, tool_toolCallId := some toolCallId,
                tool_state := some "input-streaming",
                tool_input := optJsonToColumn input }, ?_, rfl, ?_⟩
      · unfold mapPartToDBPart
        rw [if_neg hinv]
        rfl
      · rw [mapPartToUIPart_toolType name rfl]
        rw [convertToolPartToUI_inputStreaming
          ({ messageId := mid, order := i, type := "tool-" ++ name,
                   tool_name := some name, tool_toolCallId := some toolCallId,
                   tool_state := some "input-streaming",
                   tool_input := optJsonToColumn input })
          (by simp [columnTruthyString, hw'.2.1]) rfl]
        show Except.ok (some (RestoredPart.part (UIPart.tool
          (jsDropChars ( "tool-" ++ name) 5) toolCallId
          (.inputStreaming (optJsonToColumn input)) none))) = _
        rw [jsDropChars_tool, optJsonToColumn_eq hin]
        rfl
    | inputAvailable input =>
      refine ⟨{ messageId := mid, order := i, type := "tool-" ++ name,
                tool_name := some name, tool_toolCallId := some toolCallId,
                tool_state := some "input-available",
                tool_input := jsonToColumn input }, ?_, rfl, ?_⟩
      · unfold mapPartToDBPart
        rw [if_neg hinv]
        rfl
      · rw [mapPartToUIPart_toolType name rfl]
        rw [convertToolPartToUI_inputAvailable
          ({ messageId := mid, order := i, type := "tool-" ++ name,
                   tool_name := some name, tool_toolCallId := some toolCallId,
                   tool_state := some "input-available",
                   tool_input := jsonToColumn input })
          (by simp [columnTruthyString, hw'.2.1]) rfl]
        show Except.ok (some (RestoredPart.part (UIPart.tool
          (jsDropChars ( "tool-" ++ name) 5) toolCallId
          (.inputAvailable (columnToJson (jsonToColumn input)))
          (truthyMeta none)))) = _
        rw [jsDropChars_tool]
        simp only [columnToJson_jsonToColumn]
        rfl
    | outputAvailable input output =>
      refine ⟨{ messageId := mid, order := i, type := "tool-" ++ name,
                tool_name := some name, tool_toolCallId := some toolCallId,
                tool_state := some "output-available",
                tool_input := jsonToColumn input,
                tool_output := jsonToColumn output }, ?_, rfl, ?_⟩
      · unfold mapPartToDBPart
        rw [if_neg hinv]
        rfl
      · rw [mapPartToUIPart_toolType name rfl]
        rw [convertToolPartToUI_outputAvailable
          ({ messageId := mid, order := i, type := "tool-" ++ name,
                   tool_name := some name, tool_toolCallId := some toolCallId,
                   tool_state := some "output-available",
                   tool_input := jsonToColumn input,
                   tool_output := jsonToColumn output })
          (by simp [columnTruthyString, hw'.2.1]) rfl]
        show Except.ok (some (RestoredPart.part (UIPart.tool
          (jsDropChars ( "tool-" ++ name) 5) toolCallId
          (.outputAvailable (columnToJson (jsonToColumn input)) (columnToJson (jsonToColumn output)))
          (truthyMeta none)))) = _
        rw [jsDropChars_tool]
        simp only [columnToJson_jsonToColumn]
        rfl
    | outputError input errorText =>
      refine ⟨{ messageId := mid, order := i, type := "tool-" ++ name,
                tool_name := some name, tool_toolCallId := some toolCallId,
                tool_state := some "output-error",
                tool_input := jsonToColumn input,
                tool_errorText := some errorText }, ?_, rfl, ?_⟩
      · unfold mapPartToDBPart
        rw [if_neg hinv]
        rfl
      · rw [mapPartToUIPart_toolType name rfl]
        rw [convertToolPartToUI_outputError
          ({ messageId := mid, order := i, type := "tool-" ++ name,
                   tool_name := some name, tool_toolCallId := some toolCallId,
                   tool_state := some "output-error",
                   tool_input := jsonToColumn input,
                   tool_errorText := some errorText })
          (by simp [columnTruthyString, hw'.2.1]) rfl]
        show Except.ok (some (RestoredPart.part (UIPart.tool
          (jsDropChars ( "tool-" ++ name) 5) toolCallId
          (.outputError (columnToJson (jsonToColumn input)) ((some errorText).getD ""))
          (truthyMeta none)))) = _
        rw [jsDropChars_tool]
        simp only [columnToJson_jsonToColumn]
        rfl

/-- Rows produced from index `i` on: orders bounded below by `i`, sorted, and
restoring pointwise to the normalized parts. -/
theorem mapPartsToDBAux_spec (mid : String) :
    ∀ (parts : List UIPart), (∀ p ∈ parts, wellFormedPart p = true) → ∀ i : Nat,
      (∀ r ∈ mapPartsToDBAux mid i parts, i ≤ r.order) ∧
      List.Chain' (fun a b => a.order ≤ b.order) (mapPartsToDBAux mid i parts) ∧
      mapRowsToUIAux (mapPartsToDBAux mid i parts) =
        .ok (parts.map (fun p => some (.part (restoreNormalize p)))) := by
  intro parts
  induction parts with
  | nil =>
    intro _ i
    exact ⟨by simp [mapPartsToDBAux], by simp [mapPartsToDBAux], rfl⟩
  | cons p rest ih =>
    intro hw i
    obtain ⟨db, hdb, horder, hui⟩ :=
      mapPart_roundTrip (hw p (List.mem_cons_self p rest)) i mid
    have ihr := ih (fun q hq => hw q (List.mem_cons_of_mem p hq)) (i + 1)
    have hstep : mapPartsToDBAux mid i (p :: rest) =
        db :: mapPartsToDBAux mid (i + 1) rest := by
      show (match mapPartToDBPart p i mid with
        | some db => db :: mapPartsToDBAux mid (i + 1) rest
        | none => mapPartsToDBAux mid (i + 1) rest) =
          db :: mapPartsToDBAux mid (i + 1) rest
      rw [hdb]
    rw [hstep]
    refine ⟨?_, ?_, ?_⟩
    · intro r hr
      rcases List.mem_cons.mp hr with h | h
      · subst h
        omega
      · have := ihr.1 r h
        omega
    · refine List.chain'_cons'.mpr ⟨?_, ihr.2.1⟩
      intro y hy
      have hmem : y ∈ mapPartsToDBAux mid (i + 1) rest := by
        cases hh : mapPartsToDBAux mid (i + 1) rest with
        | nil => rw [hh] at hy; simp at hy
        | cons a l =>
          rw [hh] at hy
          simp at hy
          exact List.mem_cons.mpr (Or.inl hy.symm)
      have := ihr.1 y hmem
      omega
    · show (match mapPartToUIPart db with
        | .ok x =>
          match mapRowsToUIAux (mapPartsToDBAux mid (i + 1) rest) with
          | .ok xs => Except.ok (x :: xs)
          | .error e => Except.error e
        | .error e => Except.error e) = _
      rw [hui, ihr.2.2]
      rfl

/-- Sorting already-sorted rows (as produced by the storage direction) is the
identity. -/
theorem sortByOrder_of_chain : ∀ {rows : List DBPart},
    List.Chain' (fun a b => a.order ≤ b.order) rows → sortByOrder rows = rows := by
  intro rows
  induction rows with
  | nil => intro _; rfl
  | cons p rest ih =>
    intro h
    have hrest := (List.chain'_cons'.mp h).2
    unfold sortByOrder
    rw [ih hrest]
    cases rest with
    | nil => rfl
    | cons q rest' =>
      have hpq : p.order ≤ q.order := by
        have := (List.chain'_cons'.mp h).1 q
        simp at this
        exact this
      unfold insertByOrder
      rw [if_pos hpq]

/-- C10 as stated is false: a `data-*` part whose payload is the non-null but
falsy value `""` is stored but dropped on the way back (both truthiness
guards of `convertDataPartToUI` fail), so the round trip returns the empty
list instead of a one-element list. -/
theorem C10_counterexample :
    mapDBPartsToUIParts (mapUIMessagePartsToDBParts
        [ UIPart.data "foo" (Json.str "") ] "m") = .ok [] ∧
    [ UIPart.data "foo" (Json.str "") ].length = 1 ∧
    Json.str "" ≠ Json.null := by
  refine ⟨rfl, rfl, ?_⟩
  intro h
  exact Json.noConfusion h

/-- C10 (amended): for parts of the supported shapes whose data payloads are
truthy (not merely non-null), whose tool parts carry a non-empty
`toolCallId`, a state other than a JSON-null streaming input, and a name
other than `invocation`, and whose optional filename/title fields are absent
rather than empty, the DB round trip succeeds and returns one restored part
per original, in order, each equal to its original in type string and
primary payload (only provider metadata is normalized). -/
theorem C10_theorem (parts : List UIPart) (mid : String)
    (hw : ∀ p ∈ parts, wellFormedPart p = true) :
    mapDBPartsToUIParts (mapUIMessagePartsToDBParts parts mid) =
      .ok (parts.map (fun p => RestoredPart.part (restoreNormalize p))) ∧
    (parts.map (fun p => RestoredPart.part (restoreNormalize p))).length =
      parts.length ∧
    ∀ p : UIPart, (restoreNormalize p).typeString = p.typeString ∧
      (restoreNormalize p).payload = p.payload := by
  obtain ⟨-, hchain, hrows⟩ := mapPartsToDBAux_spec mid parts hw 0
  refine ⟨?_, by simp, ?_⟩
  · unfold mapDBPartsToUIParts mapUIMessagePartsToDBParts
    rw [sortByOrder_of_chain hchain, hrows]
    simp only []
    show Except.ok ((List.map (fun p => some (RestoredPart.part (restoreNormalize p)))
      parts).filterMap id) = _
    rw [List.filterMap_map]
    exact congrArg Except.ok
      (congrFun (List.filterMap_eq_map (fun p => RestoredPart.part (restoreNormalize p))) parts)
  · intro p
    cases p <;> exact ⟨rfl, rfl⟩

theorem C10_witness :
    mapDBPartsToUIParts (mapUIMessagePartsToDBParts
        [ UIPart.text "hello" none,
          UIPart.tool "getWeather" "call1" (.inputAvailable (Json.str "x")) none,
          UIPart.data "foo" (Json.num 3) ] "m") =
      .ok ([ UIPart.text "hello" none,
             UIPart.tool "getWeather" "call1" (.inputAvailable (Json.str "x")) none,
             UIPart.data "foo" (Json.num 3) ].map
        (fun p => RestoredPart.part (restoreNormalize p))) :=
  (C10_theorem
    [ UIPart.text "hello" none,
      UIPart.tool "getWeather" "call1" (.inputAvailable (Json.str "x")) none,
      UIPart.data "foo" (Json.num 3) ] "m" (by decide)).1

end Sparka
